import Mathlib

/-!
Verification development for the turbo-boost-detection core
(`lib/model.py`, `lib/sub_module.py`).

The Python source is shallowly embedded: tensors become total functions
over natural-number indices with their dimensions carried alongside,
float arithmetic becomes exact rational arithmetic (`ℚ`), and fallible
code returns `Except String`.  Learned collaborator networks (the
`upsample` trunk, the `feat_extract` trunk, the classifier and mask
heads) are parameters of the embedded functions: a property of the
source must hold for every choice of their weights, so they are
universally quantified functions.
-/

/-- `EPS = 10e-20` from `lib/model.py` line 7, used to guard divisions. -/
def EPS : ℚ := 1 / 10 ^ 19

/-- Sum of `f 0 + f 1 + ... + f (n-1)`, the embedding of `torch.sum` along
one axis of length `n`. -/
def sumTo (f : ℕ → ℚ) : ℕ → ℚ
  | 0 => 0
  | n + 1 => sumTo f n + f n

theorem sumTo_nonneg (f : ℕ → ℚ) (n : ℕ) (h : ∀ i < n, 0 ≤ f i) : 0 ≤ sumTo f n := by
  induction n with
  | zero => simp [sumTo]
  | succ m ih =>
    have h1 : 0 ≤ sumTo f m := ih fun i hi => h i (Nat.lt_succ_of_lt hi)
    have h2 : 0 ≤ f m := h m (Nat.lt_succ_self m)
    simpa [sumTo] using add_nonneg h1 h2

theorem sumTo_eq_zero (f : ℕ → ℚ) (n : ℕ) (h : ∀ i < n, f i = 0) : sumTo f n = 0 := by
  induction n with
  | zero => simp [sumTo]
  | succ m ih =>
    have h1 : sumTo f m = 0 := ih fun i hi => h i (Nat.lt_succ_of_lt hi)
    simp [sumTo, h1, h m (Nat.lt_succ_self m)]

/-- A ROI box `(y1, x1, y2, x2)` in normalized image coordinates, as one
row of the `rois` tensor chunked in `Dev.forward` (`sub_module.py` 323). -/
structure Box where
  y1 : ℚ
  x1 : ℚ
  y2 : ℚ
  x2 : ℚ
deriving DecidableEq, Repr

/-- Static configuration consumed by `Dev.__init__` (`sub_module.py` 264-277):
pooling sizes and the image shape. -/
structure DevConfig where
  pool_size : ℕ
  mask_pool_size : ℕ
  feat_pool_size : ℕ
  image_h : ℕ
  image_w : ℕ
deriving DecidableEq, Repr

/-- The quantity `(h*w) * image_area / 224^2`, i.e. the square of
`sqrt(h*w) / (224 / sqrt(image_area))` appearing inside the `log2` of the
level-assignment formula of `Dev.forward` (`sub_module.py` 327). -/
def roi_area_scaled (cfg : DevConfig) (b : Box) : ℚ :=
  (b.y2 - b.y1) * (b.x2 - b.x1) * ((cfg.image_h * cfg.image_w : ℕ) : ℚ) / 224 ^ 2

/-- Pyramid-level decision on the squared argument `s = t^2` of the source
formula `clamp(round(4 + log2 t), 2, 5)` (`sub_module.py` 327-330).  For
`t > 0` one has `round(4 + log2 t) ≤ 2 ↔ t^2 < 2^(-3)`,
`≤ 3 ↔ t^2 < 2^(-1)` and `≤ 4 ↔ t^2 < 2`, which gives this rational
decision procedure; it is proved equal to the real-valued source formula in
`C1_dev_roi_level`.  At `s = 0` (a zero-padded all-zero box) the source
computes `log2 0 = -inf`, which the clamp sends to level 2, and this
definition agrees by taking the first branch. -/
def level_of_scaled (s : ℚ) : ℤ :=
  if s < 1 / 8 then 2 else if s < 1 / 2 then 3 else if s < 2 then 4 else 5

/-- Level assigned to one ROI by `Dev.forward` (`sub_module.py` 322-330):
`roi_level = clamp(round(4 + log2(sqrt(h*w)/(224/sqrt(image_area)))), 2, 5)`. -/
def roi_level (cfg : DevConfig) (b : Box) : ℤ :=
  level_of_scaled (roi_area_scaled cfg b)

theorem level_of_scaled_mem (s : ℚ) :
    level_of_scaled s = 2 ∨ level_of_scaled s = 3 ∨ level_of_scaled s = 4 ∨
      level_of_scaled s = 5 := by
  unfold level_of_scaled; split_ifs <;> simp

theorem level_of_scaled_mono {s₁ s₂ : ℚ} (h : s₁ ≤ s₂) :
    level_of_scaled s₁ ≤ level_of_scaled s₂ := by
  unfold level_of_scaled
  split_ifs <;> first | omega | linarith

/-- `Dev._find_big_box` (`sub_module.py` 303-312): on level 2 the big ROIs
are those assigned level 4 or 5 (`(roi_level == 4) + (roi_level == 5)`),
on level 3 those assigned level 5, and on any other level the mask
`roi_level == -1` is used, which never fires for clamped levels. -/
def find_big_box (level : ℤ) (r : ℤ) : Bool :=
  if level = 2 then decide (r = 4) || decide (r = 5)
  else if level = 3 then decide (r = 5)
  else decide (r = -1)

/-- C5: for every level and every per-ROI level assignment produced by the
clamp to `[2, 5]`, `Dev._find_big_box` flags exactly these ROIs as big: at
level 2 the ROIs assigned level 4 or 5, at level 3 the ROIs assigned
level 5, and at levels 4 and 5 no ROI at all. -/
theorem C5_find_big_box_spec (level r : ℤ) (h2 : 2 ≤ r) (h5 : r ≤ 5) :
    find_big_box level r = true ↔
      (level = 2 ∧ (r = 4 ∨ r = 5)) ∨ (level = 3 ∧ r = 5) := by
  unfold find_big_box
  split_ifs with hl2 hl3 <;> simp_all <;> omega

theorem C5_find_big_box_spec_witness :
    ((2:ℤ) ≤ 4 ∧ (4:ℤ) ≤ 5) ∧
      (find_big_box 4 4 = true ↔
        ((4:ℤ) = 2 ∧ ((4:ℤ) = 4 ∨ (4:ℤ) = 5)) ∨ ((4:ℤ) = 3 ∧ (4:ℤ) = 5)) :=
  ⟨by decide, C5_find_big_box_spec 4 4 (by decide) (by decide)⟩

theorem ratCast_lt_real {a b : ℚ} (h : a < b) : (a:ℝ) < (b:ℝ) := by exact_mod_cast h

theorem ratCast_le_real {a b : ℚ} (h : a ≤ b) : (a:ℝ) ≤ (b:ℝ) := by exact_mod_cast h

/-- Key arithmetic fact behind `roi_level`: clamping the rounded
`4 + log2 (sqrt s)` to `[2, 5]` agrees with the rational decision
`level_of_scaled` on the squared argument `s > 0`. -/
theorem clamp_round_logb_sqrt (s : ℚ) (hs : 0 < s) :
    min (max (round ((4:ℝ) + Real.logb 2 (Real.sqrt (s:ℝ)))) 2) 5
      = level_of_scaled s := by
  have hb : (1:ℝ) < 2 := one_lt_two
  have hsR : (0:ℝ) < (s:ℝ) := by exact_mod_cast hs
  have hlog : Real.logb 2 (Real.sqrt (s:ℝ)) = Real.logb 2 (s:ℝ) / 2 := by
    unfold Real.logb
    rw [Real.log_sqrt hsR.le]
    ring
  set u : ℝ := Real.logb 2 (s:ℝ) with hu
  have hround : ∀ (r : ℝ), round r = ⌊r + 1/2⌋ := fun r => round_eq r
  have h8 : (2:ℝ) ^ (-3:ℝ) = 1/8 := by
    rw [show (-3:ℝ) = ((-3:ℤ):ℝ) by norm_num, Real.rpow_intCast]
    norm_num
  have h2r : (2:ℝ) ^ (-1:ℝ) = 1/2 := by
    rw [show (-1:ℝ) = ((-1:ℤ):ℝ) by norm_num, Real.rpow_intCast]
    norm_num
  have h1r : (2:ℝ) ^ (1:ℝ) = 2 := by
    rw [show (1:ℝ) = ((1:ℤ):ℝ) by norm_num, Real.rpow_intCast]
    norm_num
  unfold level_of_scaled
  split_ifs with c1 c2 c3
  · -- s < 1/8 : level 2
    have hx : (s:ℝ) < 1/8 := by have := ratCast_lt_real c1; push_cast at this; exact this
    have hub : u < -3 := by
      rw [hu]
      exact (Real.logb_lt_iff_lt_rpow hb hsR).mpr (by rw [h8]; exact hx)
    have hfl : round ((4:ℝ) + u/2) ≤ 2 := by
      rw [hround]
      have : ⌊(4:ℝ) + u/2 + 1/2⌋ < 3 := Int.floor_lt.mpr (by push_cast; linarith)
      omega
    rw [hlog]
    omega
  · -- 1/8 ≤ s < 1/2 : level 3
    have hx1 : (1:ℝ)/8 ≤ (s:ℝ) := by
      have := ratCast_le_real (not_lt.mp c1); push_cast at this; exact this
    have hx2 : (s:ℝ) < 1/2 := by have := ratCast_lt_real c2; push_cast at this; exact this
    have hub1 : (-3:ℝ) ≤ u := by
      rw [hu]
      exact (Real.le_logb_iff_rpow_le hb hsR).mpr (by rw [h8]; exact hx1)
    have hub2 : u < -1 := by
      rw [hu]
      exact (Real.logb_lt_iff_lt_rpow hb hsR).mpr (by rw [h2r]; exact hx2)
    have hfl : round ((4:ℝ) + u/2) = 3 := by
      rw [hround]
      apply Int.floor_eq_iff.mpr
      constructor
      · push_cast; linarith
      · push_cast; linarith
    rw [hlog]
    omega
  · -- 1/2 ≤ s < 2 : level 4
    have hx1 : (1:ℝ)/2 ≤ (s:ℝ) := by
      have := ratCast_le_real (not_lt.mp c2); push_cast at this; exact this
    have hx2 : (s:ℝ) < 2 := by have := ratCast_lt_real c3; push_cast at this; exact this
    have hub1 : (-1:ℝ) ≤ u := by
      rw [hu]
      exact (Real.le_logb_iff_rpow_le hb hsR).mpr (by rw [h2r]; exact hx1)
    have hub2 : u < 1 := by
      rw [hu]
      exact (Real.logb_lt_iff_lt_rpow hb hsR).mpr (by rw [h1r]; exact hx2)
    have hfl : round ((4:ℝ) + u/2) = 4 := by
      rw [hround]
      apply Int.floor_eq_iff.mpr
      constructor
      · push_cast; linarith
      · push_cast; linarith
    rw [hlog]
    omega
  · -- 2 ≤ s : level 5
    have hx : (2:ℝ) ≤ (s:ℝ) := by
      have := ratCast_le_real (not_lt.mp c3); push_cast at this; exact this
    have hub : (1:ℝ) ≤ u := by
      rw [hu]
      exact (Real.le_logb_iff_rpow_le hb hsR).mpr (by rw [h1r]; exact hx)
    have hfl : 5 ≤ round ((4:ℝ) + u/2) := by
      rw [hround]
      exact Int.le_floor.mpr (by push_cast; linarith)
    rw [hlog]
    omega

/-- C1: in dynamic mode, `Dev.forward` assigns every ROI the pyramid level
`clamp(round(4 + log2(sqrt((y2-y1)*(x2-x1)) / (224 / sqrt(image_h*image_w)))), 2, 5)`
(`sub_module.py` 322-330), and larger boxes map to coarser (higher-numbered)
levels. -/
theorem C1_dev_roi_level (cfg : DevConfig) (b : Box)
    (harea : 0 < (b.y2 - b.y1) * (b.x2 - b.x1))
    (himg : 0 < cfg.image_h * cfg.image_w) :
    roi_level cfg b
      = min (max (round ((4:ℝ) + Real.logb 2
          (Real.sqrt (((b.y2 - b.y1) * (b.x2 - b.x1) : ℚ) : ℝ)
            / (224 / Real.sqrt ((cfg.image_h * cfg.image_w : ℕ) : ℝ))))) 2) 5
    ∧ ∀ b' : Box,
        (b.y2 - b.y1) * (b.x2 - b.x1) ≤ (b'.y2 - b'.y1) * (b'.x2 - b'.x1) →
        roi_level cfg b ≤ roi_level cfg b' := by
  constructor
  · have hA : (0:ℝ) < ((cfg.image_h * cfg.image_w : ℕ) : ℝ) := by exact_mod_cast himg
    have ha : (0:ℝ) < (((b.y2 - b.y1) * (b.x2 - b.x1) : ℚ) : ℝ) := by exact_mod_cast harea
    have hs : 0 < roi_area_scaled cfg b := by
      unfold roi_area_scaled
      have hAq : (0:ℚ) < ((cfg.image_h * cfg.image_w : ℕ) : ℚ) := by exact_mod_cast himg
      positivity
    have harg : Real.sqrt (((b.y2 - b.y1) * (b.x2 - b.x1) : ℚ) : ℝ)
          / (224 / Real.sqrt ((cfg.image_h * cfg.image_w : ℕ) : ℝ))
        = Real.sqrt ((roi_area_scaled cfg b : ℚ) : ℝ) := by
      have hcast : ((roi_area_scaled cfg b : ℚ) : ℝ)
          = (((b.y2 - b.y1) * (b.x2 - b.x1) : ℚ) : ℝ)
              * ((cfg.image_h * cfg.image_w : ℕ) : ℝ) / 224 ^ 2 := by
        unfold roi_area_scaled
        push_cast
        ring
      rw [hcast, Real.sqrt_div (by positivity), Real.sqrt_sq (by norm_num : (0:ℝ) ≤ 224),
        Real.sqrt_mul ha.le]
      have h224 : Real.sqrt ((cfg.image_h * cfg.image_w : ℕ) : ℝ) ≠ 0 :=
        ne_of_gt (Real.sqrt_pos.mpr hA)
      field_simp
    rw [harg, roi_level, ← clamp_round_logb_sqrt (roi_area_scaled cfg b) hs]
  · intro b' hle
    apply level_of_scaled_mono
    unfold roi_area_scaled
    have hAq : (0:ℚ) ≤ ((cfg.image_h * cfg.image_w : ℕ) : ℚ) := by positivity
    gcongr

theorem C1_dev_roi_level_witness :
    (0 < ((1:ℚ)/2 - 0) * ((1:ℚ)/2 - 0) ∧ 0 < 256 * 256) ∧
      (roi_level ⟨7, 14, 14, 256, 256⟩ ⟨0, 0, 1/2, 1/2⟩
        = min (max (round ((4:ℝ) + Real.logb 2
            (Real.sqrt ((((1:ℚ)/2 - 0) * ((1:ℚ)/2 - 0) : ℚ) : ℝ)
              / (224 / Real.sqrt ((256 * 256 : ℕ) : ℝ))))) 2) 5
      ∧ ∀ b' : Box,
          ((1:ℚ)/2 - 0) * ((1:ℚ)/2 - 0) ≤ (b'.y2 - b'.y1) * (b'.x2 - b'.x1) →
          roi_level ⟨7, 14, 14, 256, 256⟩ ⟨0, 0, 1/2, 1/2⟩
            ≤ roi_level ⟨7, 14, 14, 256, 256⟩ b') :=
  ⟨by norm_num, C1_dev_roi_level ⟨7, 14, 14, 256, 256⟩ ⟨0, 0, 1/2, 1/2⟩ (by norm_num) (by norm_num)⟩

/-- Running big-object feature buffer owned by the model
(`self.buffer : buffer_size x 1024 x 81`, `self.buffer_cnt`), indexed as
slot, feature dimension, class; the singleton broadcast axis of the count
tensor is dropped.  Values outside the declared sizes are unused junk. -/
structure MetaBuffer where
  K : ℕ
  buf : ℕ → ℕ → ℕ → ℚ
  bufCnt : ℕ → ℕ → ℚ

/-- `MaskRCNN._merge_feat_vec` (`model.py` 167-174), feature part:
`sum(feat * cnt over gpu and scale axes) / (sum(cnt) + EPS)` at feature
dimension `d` and class `c`. -/
def merge_feat (G S : ℕ) (feat : ℕ → ℕ → ℕ → ℕ → ℚ) (cnt : ℕ → ℕ → ℕ → ℚ)
    (d c : ℕ) : ℚ :=
  sumTo (fun g => sumTo (fun s => feat g s d c * cnt g s c) S) G
    / (sumTo (fun g => sumTo (fun s => cnt g s c) S) G + EPS)

/-- `MaskRCNN._merge_feat_vec` (`model.py` 167-174), count part:
`sum(cnt over gpu and scale axes)` at class `c`. -/
def merge_cnt (G S : ℕ) (cnt : ℕ → ℕ → ℕ → ℚ) (c : ℕ) : ℚ :=
  sumTo (fun g => sumTo (fun s => cnt g s c) S) G

/-- Buffer update of `MaskRCNN.meta_loss` (`model.py` 137-153) plus the
reference big-object average `final_big_feat` it produces.  With capacity 1
the slot accumulates all history (`feat_sum / (buffer_cnt + EPS)` after
`buffer_cnt += cnt`); otherwise the ring shifts
(`buffer[:-1] = buffer[1:]; buffer[-1] = merged`) and the reference is the
count-weighted average over all slots. -/
def meta_update (st : MetaBuffer) (mbF : ℕ → ℕ → ℚ) (mbC : ℕ → ℚ) :
    MetaBuffer × (ℕ → ℕ → ℚ) :=
  if st.K = 1 then
    let newCnt : ℕ → ℕ → ℚ := fun k c => st.bufCnt k c + mbC c
    let newBuf : ℕ → ℕ → ℕ → ℚ := fun k d c =>
      (st.buf k d c * st.bufCnt k c + mbF d c * mbC c) / (newCnt k c + EPS)
    (⟨st.K, newBuf, newCnt⟩, fun d c => newBuf 0 d c)
  else
    let newBuf : ℕ → ℕ → ℕ → ℚ := fun k d c =>
      if k = st.K - 1 then mbF d c else st.buf (k + 1) d c
    let newCnt : ℕ → ℕ → ℚ := fun k c =>
      if k = st.K - 1 then mbC c else st.bufCnt (k + 1) c
    (⟨st.K, newBuf, newCnt⟩, fun d c =>
      sumTo (fun k => newBuf k d c * newCnt k c) st.K
        / (sumTo (fun k => newCnt k c) st.K + EPS))

/-- `final_small_cnt.data[0][0] = 0` (`model.py` 155): the background
class's small-object count is zeroed unconditionally before the loss. -/
def small_cnt_zeroed (msC : ℕ → ℚ) : ℕ → ℚ := fun c => if c = 0 then 0 else msC c

/-- Membership of class `c` in `_idx = nonzero(final_small_cnt)`
(`model.py` 156) after the background zeroing. -/
def qualifies (msC : ℕ → ℚ) (c : ℕ) : Bool := decide (small_cnt_zeroed msC c ≠ 0)

/-- Number of qualifying classes, the row count of `SMALL`/`BIG`. -/
def countQual (C : ℕ) (msC : ℕ → ℚ) : ℕ :=
  (List.range C).countP (fun c => qualifies msC c)

/-- Squared-error sum over the feature dimension for one class. -/
def sq_err_sum (D : ℕ) (msF fb : ℕ → ℕ → ℚ) (c : ℕ) : ℚ :=
  sumTo (fun d => (msF d c - fb d c) ^ 2) D

/-- The consistency-loss value of `MaskRCNN.meta_loss` (`model.py` 155-165):
`nn.MSELoss()(SMALL, BIG)`, the mean squared error over the qualifying
classes and all `D` feature dimensions, and `0` when `_idx` is empty. -/
def meta_loss_val (D C : ℕ) (msF : ℕ → ℕ → ℚ) (msC : ℕ → ℚ) (fb : ℕ → ℕ → ℚ) : ℚ :=
  if countQual C msC = 0 then 0
  else sumTo (fun c => if qualifies msC c then sq_err_sum D msF fb c else 0) C
    / ((countQual C msC : ℚ) * (D : ℚ))

/-- `MaskRCNN.meta_loss` (`model.py` 125-165): merge the per-step small and
big descriptors, update the buffer with the merged big descriptor, and
compute the consistency loss of the merged small average against the
buffer-wide big reference.  Returns the updated buffer state and the loss. -/
def meta_loss (st : MetaBuffer) (G S D C : ℕ)
    (big_feat : ℕ → ℕ → ℕ → ℕ → ℚ) (big_cnt : ℕ → ℕ → ℕ → ℚ)
    (small_feat : ℕ → ℕ → ℕ → ℕ → ℚ) (small_cnt : ℕ → ℕ → ℕ → ℚ) :
    MetaBuffer × ℚ :=
  let msF := merge_feat G S small_feat small_cnt
  let msC := merge_cnt G S small_cnt
  let mbF := merge_feat G S big_feat big_cnt
  let mbC := merge_cnt G S big_cnt
  let p := meta_update st mbF mbC
  (p.1, meta_loss_val D C msF msC p.2)

/-- Modelled from the spec: the buffer's construction is not under `src/`
(it is set up by the training workflow, outside `lib/model.py`); §4.6 of
the spec describes a fresh bounded per-class aggregate, so the buffer
starts with zero features and zero observation counts. -/
def meta_buffer_init (K : ℕ) : MetaBuffer := ⟨K, fun _ _ _ => 0, fun _ _ => 0⟩

/-- `N` consecutive `meta_loss` training steps on a constant per-step
input, keeping only the buffer state. -/
def meta_loss_iter (st₀ : MetaBuffer) (G S D C : ℕ)
    (big_feat : ℕ → ℕ → ℕ → ℕ → ℚ) (big_cnt : ℕ → ℕ → ℕ → ℚ)
    (small_feat : ℕ → ℕ → ℕ → ℕ → ℚ) (small_cnt : ℕ → ℕ → ℕ → ℚ) : ℕ → MetaBuffer
  | 0 => st₀
  | n + 1 =>
    (meta_loss (meta_loss_iter st₀ G S D C big_feat big_cnt small_feat small_cnt n)
      G S D C big_feat big_cnt small_feat small_cnt).1

theorem meta_loss_K (st : MetaBuffer) (G S D C : ℕ) (bF : ℕ → ℕ → ℕ → ℕ → ℚ)
    (bC : ℕ → ℕ → ℕ → ℚ) (sF : ℕ → ℕ → ℕ → ℕ → ℚ) (sC : ℕ → ℕ → ℕ → ℚ) :
    (meta_loss st G S D C bF bC sF sC).1.K = st.K := by
  simp only [meta_loss, meta_update]
  split <;> rfl

theorem meta_loss_iter_K (st₀ : MetaBuffer) (G S D C : ℕ) (bF : ℕ → ℕ → ℕ → ℕ → ℚ)
    (bC : ℕ → ℕ → ℕ → ℚ) (sF : ℕ → ℕ → ℕ → ℕ → ℚ) (sC : ℕ → ℕ → ℕ → ℚ) (N : ℕ) :
    (meta_loss_iter st₀ G S D C bF bC sF sC N).K = st₀.K := by
  induction N with
  | zero => rfl
  | succ n ih => rw [meta_loss_iter, meta_loss_K, ih]

theorem meta_loss_cap1_step (st : MetaBuffer) (hK : st.K = 1) (G S D C : ℕ)
    (bF : ℕ → ℕ → ℕ → ℕ → ℚ) (bC : ℕ → ℕ → ℕ → ℚ)
    (sF : ℕ → ℕ → ℕ → ℕ → ℚ) (sC : ℕ → ℕ → ℕ → ℚ) (d c : ℕ) :
    (meta_loss st G S D C bF bC sF sC).1.buf 0 d c
        = (st.buf 0 d c * st.bufCnt 0 c + merge_feat G S bF bC d c * merge_cnt G S bC c)
          / (st.bufCnt 0 c + merge_cnt G S bC c + EPS)
    ∧ (meta_loss st G S D C bF bC sF sC).1.bufCnt 0 c
        = st.bufCnt 0 c + merge_cnt G S bC c := by
  simp [meta_loss, meta_update, hK]

theorem merge_const_big_input (dvec : ℕ → ℚ) (c : ℚ) (c0 : ℕ) :
    merge_cnt 1 2 (fun _ s cl => if s = 0 ∧ cl = c0 then c else 0) c0 = c
    ∧ ∀ d, merge_feat 1 2 (fun _ _ j _ => dvec j)
        (fun _ s cl => if s = 0 ∧ cl = c0 then c else 0) d c0
          = dvec d * c / (c + EPS) := by
  constructor
  · simp [merge_cnt, sumTo]
  · intro d
    simp [merge_feat, merge_cnt, sumTo]

theorem EPS_pos : 0 < EPS := by norm_num [EPS]

/-- C3 (amended): with buffer capacity 1, feeding the identical per-class
big-object descriptor `dvec` with positive count `c` into `meta_loss` for
`N ≥ 1` consecutive steps makes the stored buffer equal
`dvec * (c / (c + EPS))^2` — stationary across steps, and equal to the
descriptor only up to the two EPS-guarded averaging divisions
(`model.py` 142-144 and 173) — while the slot's observation count
accumulates all history, growing to `N * c`. -/
theorem C3_meta_capacity1_stationary (D C : ℕ) (dvec : ℕ → ℚ) (c : ℚ) (c0 : ℕ)
    (sF : ℕ → ℕ → ℕ → ℕ → ℚ) (sC : ℕ → ℕ → ℕ → ℚ)
    (hc : 0 < c) (N : ℕ) (hN : 1 ≤ N) :
    (∀ d, (meta_loss_iter (meta_buffer_init 1) 1 2 D C
        (fun _ _ j _ => dvec j)
        (fun _ s cl => if s = 0 ∧ cl = c0 then c else 0) sF sC N).buf 0 d c0
      = dvec d * (c / (c + EPS)) ^ 2)
    ∧ (meta_loss_iter (meta_buffer_init 1) 1 2 D C
        (fun _ _ j _ => dvec j)
        (fun _ s cl => if s = 0 ∧ cl = c0 then c else 0) sF sC N).bufCnt 0 c0
      = (N : ℚ) * c := by
  have hce : c + EPS ≠ 0 := by have := EPS_pos; intro h; linarith
  have hmc := (merge_const_big_input dvec c c0).1
  have hmf := (merge_const_big_input dvec c c0).2
  induction N, hN using Nat.le_induction with
  | base =>
    have hK : (meta_loss_iter (meta_buffer_init 1) 1 2 D C
        (fun _ _ j _ => dvec j)
        (fun _ s cl => if s = 0 ∧ cl = c0 then c else 0) sF sC 0).K = 1 :=
      meta_loss_iter_K _ _ _ _ _ _ _ _ _ _
    rw [meta_loss_iter]
    constructor
    · intro d
      rw [(meta_loss_cap1_step _ hK _ _ _ _ _ _ _ _ d c0).1, hmc, hmf d]
      show ((meta_buffer_init 1).buf 0 d c0 * (meta_buffer_init 1).bufCnt 0 c0
          + dvec d * c / (c + EPS) * c) / ((meta_buffer_init 1).bufCnt 0 c0 + c + EPS)
        = dvec d * (c / (c + EPS)) ^ 2
      simp only [meta_buffer_init]
      field_simp
      ring
    · rw [(meta_loss_cap1_step _ hK _ _ _ _ _ _ _ _ 0 c0).2, hmc]
      simp [meta_loss_iter, meta_buffer_init]
  | succ n hn ih =>
    have hK : (meta_loss_iter (meta_buffer_init 1) 1 2 D C
        (fun _ _ j _ => dvec j)
        (fun _ s cl => if s = 0 ∧ cl = c0 then c else 0) sF sC n).K = 1 :=
      meta_loss_iter_K _ _ _ _ _ _ _ _ _ _
    have hsum : (n : ℚ) * c + c + EPS ≠ 0 := by
      have hn0 : (0:ℚ) ≤ (n : ℚ) * c := by positivity
      have := EPS_pos
      linarith
    rw [meta_loss_iter]
    constructor
    · intro d
      rw [(meta_loss_cap1_step _ hK _ _ _ _ _ _ _ _ d c0).1, hmc, hmf d, ih.1 d, ih.2]
      field_simp
      ring
    · rw [(meta_loss_cap1_step _ hK _ _ _ _ _ _ _ _ 0 c0).2, hmc, ih.2]
      push_cast
      ring

/-- C3 counterexample: one step (`N = 1`) of `meta_loss` at capacity 1 with
the constant descriptor `1` for class `0` at positive count `1` leaves the
stored buffer at `(1/(1+EPS))^2 ≠ 1`: the claimed exact equality with the
descriptor fails in exact arithmetic because both `_merge_feat_vec` and the
capacity-1 update divide by `count + EPS`. -/
theorem C3_meta_capacity1_counterexample :
    (meta_loss_iter (meta_buffer_init 1) 1 2 1 1
       (fun _ _ _ _ => 1) (fun _ s cl => if s = 0 ∧ cl = 0 then 1 else 0)
       (fun _ _ _ _ => 0) (fun _ _ _ => 0) 1).buf 0 0 0 ≠ 1 := by
  simp [meta_loss_iter, meta_loss, meta_update, meta_buffer_init, merge_feat, merge_cnt,
    sumTo, EPS]
  norm_num

theorem C3_meta_capacity1_stationary_witness :
    ((0:ℚ) < 1 ∧ 1 ≤ 1) ∧
      ((∀ d, (meta_loss_iter (meta_buffer_init 1) 1 2 1 1
          (fun _ _ _ _ => (2:ℚ))
          (fun _ s cl => if s = 0 ∧ cl = 0 then 1 else 0)
          (fun _ _ _ _ => 0) (fun _ _ _ => 0) 1).buf 0 d 0
        = 2 * (1 / (1 + EPS)) ^ 2)
      ∧ (meta_loss_iter (meta_buffer_init 1) 1 2 1 1
          (fun _ _ _ _ => (2:ℚ))
          (fun _ s cl => if s = 0 ∧ cl = 0 then 1 else 0)
          (fun _ _ _ _ => 0) (fun _ _ _ => 0) 1).bufCnt 0 0 = (1:ℚ) * 1) :=
  ⟨⟨by norm_num, le_refl 1⟩,
    C3_meta_capacity1_stationary 1 1 (fun _ => 2) 1 0
      (fun _ _ _ _ => 0) (fun _ _ _ => 0) (by norm_num) 1 (le_refl 1)⟩

theorem merge_cnt_nonneg (G S : ℕ) (cnt : ℕ → ℕ → ℕ → ℚ) (c : ℕ)
    (h : ∀ g < G, ∀ s < S, 0 ≤ cnt g s c) : 0 ≤ merge_cnt G S cnt c := by
  unfold merge_cnt
  apply sumTo_nonneg
  intro g hg
  apply sumTo_nonneg
  intro s hs
  exact h g hg s hs

/-- C9: every `meta_loss` call keeps each per-class observation count of
the running buffer non-negative (given non-negative per-step big counts),
and keeps the feature/count pair co-indexed: with capacity 1 both
accumulate in place in the single slot, and in the ring branch slot `k`
receives exactly the feature/count pair of old slot `k+1` while the last
slot receives the merged step descriptor and its merged count
(`model.py` 137-153). -/
theorem C9_meta_buffer_invariant (st : MetaBuffer) (G S D C : ℕ)
    (bF : ℕ → ℕ → ℕ → ℕ → ℚ) (bC : ℕ → ℕ → ℕ → ℚ)
    (sF : ℕ → ℕ → ℕ → ℕ → ℚ) (sC : ℕ → ℕ → ℕ → ℚ)
    (hbuf : ∀ k < st.K, ∀ c < C, 0 ≤ st.bufCnt k c)
    (hin : ∀ g < G, ∀ s < S, ∀ c < C, 0 ≤ bC g s c) :
    (∀ k < st.K, ∀ c < C, 0 ≤ (meta_loss st G S D C bF bC sF sC).1.bufCnt k c)
    ∧ (st.K ≠ 1 → ∀ k, k + 1 < st.K → ∀ d c,
        (meta_loss st G S D C bF bC sF sC).1.buf k d c = st.buf (k + 1) d c
        ∧ (meta_loss st G S D C bF bC sF sC).1.bufCnt k c = st.bufCnt (k + 1) c)
    ∧ (st.K ≠ 1 → ∀ d c,
        (meta_loss st G S D C bF bC sF sC).1.buf (st.K - 1) d c = merge_feat G S bF bC d c
        ∧ (meta_loss st G S D C bF bC sF sC).1.bufCnt (st.K - 1) c = merge_cnt G S bC c)
    ∧ (st.K = 1 → ∀ c,
        (meta_loss st G S D C bF bC sF sC).1.bufCnt 0 c
          = st.bufCnt 0 c + merge_cnt G S bC c) := by
  have hmc : ∀ c < C, 0 ≤ merge_cnt G S bC c := fun c hc =>
    merge_cnt_nonneg G S bC c (fun g hg s hs => hin g hg s hs c hc)
  by_cases hK : st.K = 1
  · refine ⟨?_, fun h => absurd hK h, fun h => absurd hK h, fun _ c => ?_⟩
    · intro k hk c hc
      simp only [meta_loss, meta_update, hK, if_pos rfl]
      exact add_nonneg (hbuf k hk c hc) (hmc c hc)
    · simp [meta_loss, meta_update, hK]
  · refine ⟨?_, fun _ k hk d c => ?_, fun _ d c => ?_, fun h => absurd h hK⟩
    · intro k hk c hc
      simp only [meta_loss, meta_update, hK, if_neg hK]
      by_cases hlast : k = st.K - 1
      · simpa [hlast] using hmc c hc
      · have hk1 : k + 1 < st.K := by omega
        simpa [hlast] using hbuf (k + 1) hk1 c hc
    · have hlast : k ≠ st.K - 1 := by omega
      constructor <;> simp [meta_loss, meta_update, hK, hlast]
    · constructor <;> simp [meta_loss, meta_update, hK]

theorem C9_meta_buffer_invariant_witness :
    ((∀ k < (meta_buffer_init 2).K, ∀ c < 1, 0 ≤ (meta_buffer_init 2).bufCnt k c)
      ∧ (∀ g < 1, ∀ s < 2, ∀ c < 1, 0 ≤ (fun _ _ _ => (1:ℚ)) g s c))
    ∧ (∀ k < (meta_buffer_init 2).K, ∀ c < 1,
        0 ≤ (meta_loss (meta_buffer_init 2) 1 2 1 1
          (fun _ _ _ _ => 1) (fun _ _ _ => 1)
          (fun _ _ _ _ => 0) (fun _ _ _ => 0)).1.bufCnt k c) :=
  ⟨⟨by intro k hk c hc; exact le_refl 0, by intro g hg s hs c hc; norm_num⟩,
    (C9_meta_buffer_invariant (meta_buffer_init 2) 1 2 1 1
      (fun _ _ _ _ => 1) (fun _ _ _ => 1) (fun _ _ _ _ => 0) (fun _ _ _ => 0)
      (by intro k hk c hc; exact le_refl 0)
      (by intro g hg s hs c hc; norm_num)).1⟩

/-- C6: in every `meta_loss` call the background class's (index 0)
small-object count is zeroed before the loss (`model.py` 155), a class
whose merged small-object count is zero this step never enters `_idx` and
so contributes zero to the consistency loss, and when no class qualifies
the returned loss is `0` rather than an error (`model.py` 156-164). -/
theorem C6_meta_loss_background_empty (st : MetaBuffer) (G S D C : ℕ)
    (bF : ℕ → ℕ → ℕ → ℕ → ℚ) (bC : ℕ → ℕ → ℕ → ℚ)
    (sF : ℕ → ℕ → ℕ → ℕ → ℚ) (sC : ℕ → ℕ → ℕ → ℚ) :
    small_cnt_zeroed (merge_cnt G S sC) 0 = 0
    ∧ (∀ c, merge_cnt G S sC c = 0 → qualifies (merge_cnt G S sC) c = false)
    ∧ ((∀ c < C, c ≠ 0 → merge_cnt G S sC c = 0) →
        (meta_loss st G S D C bF bC sF sC).2 = 0) := by
  refine ⟨by simp [small_cnt_zeroed], fun c hc => ?_, fun hall => ?_⟩
  · by_cases h0 : c = 0 <;> simp [qualifies, small_cnt_zeroed, h0, hc]
  · have hq : countQual C (merge_cnt G S sC) = 0 := by
      apply List.countP_eq_zero.mpr
      intro c hcmem
      have hcC : c < C := List.mem_range.mp hcmem
      by_cases h0 : c = 0
      · simp [qualifies, small_cnt_zeroed, h0]
      · simp [qualifies, small_cnt_zeroed, h0, hall c hcC h0]
    simp [meta_loss, meta_loss_val, hq]

theorem C6_meta_loss_background_empty_witness :
    (∀ c < 3, c ≠ 0 → merge_cnt 1 2 (fun _ _ _ => 0) c = 0) ∧
      (meta_loss (meta_buffer_init 1) 1 2 1 3
        (fun _ _ _ _ => 1) (fun _ _ _ => 1)
        (fun _ _ _ _ => 0) (fun _ _ _ => 0)).2 = 0 :=
  ⟨by intro c hc h0; simp [merge_cnt, sumTo],
    (C6_meta_loss_background_empty (meta_buffer_init 1) 1 2 1 3
      (fun _ _ _ _ => 1) (fun _ _ _ => 1) (fun _ _ _ _ => 0)
      (fun _ _ _ => 0)).2.2
      (by intro c hc h0; simp [merge_cnt, sumTo])⟩

/-- One per-image assignment `Z[i, :n] = xs` of `MaskRCNN.adjust_input_gt`
(`model.py` 190-193), where `zeros` is row `i` of the freshly allocated
zero tensor and `xs` the image's ground-truth entries (`n = xs.length`). -/
def overwrite_front {α : Type} (zeros : List α) (xs : List α) : List α :=
  xs ++ zeros.drop xs.length

/-- `MaskRCNN.adjust_input_gt` (`model.py` 176-199): zero-pad each image's
variable-length ground-truth class ids, boxes and masks to the batch's
maximum instance count and return them with the per-image valid counts
`gt_num`.  A box row pads with `[0,0,0,0]`, a mask with an all-zero
`mask_shape x mask_shape` matrix (`mask_shape = gt_masks[0].shape[1]`). -/
def adjust_input_gt (cls : List (List ℚ)) (boxes : List (List (List ℚ)))
    (masks : List (List (List (List ℚ)))) :
    List (List ℚ) × List (List (List ℚ)) × List (List (List (List ℚ))) × List ℕ :=
  let gt_num := cls.map List.length
  let max_gt := gt_num.foldr max 0
  let mask_sz := ((masks.getD 0 []).getD 0 []).length
  ((List.range cls.length).map (fun i =>
      overwrite_front (List.replicate max_gt 0) (cls.getD i [])),
   (List.range cls.length).map (fun i =>
      overwrite_front (List.replicate max_gt (List.replicate 4 0)) (boxes.getD i [])),
   (List.range cls.length).map (fun i =>
      overwrite_front (List.replicate max_gt
        (List.replicate mask_sz (List.replicate mask_sz 0))) (masks.getD i [])),
   gt_num)

theorem overwrite_front_getD_lt {α : Type} (zeros xs : List α) (d : α) (j : ℕ)
    (hj : j < xs.length) : (overwrite_front zeros xs).getD j d = xs.getD j d :=
  List.getD_append _ _ _ _ hj

theorem getD_replicate_self {α : Type} (m j : ℕ) (z : α) :
    (List.replicate m z).getD j z = z := by
  rcases Nat.lt_or_ge j (List.replicate m z).length with h | h
  · rw [List.getD_eq_getElem _ _ h, List.getElem_replicate]
  · exact List.getD_eq_default _ _ h

theorem overwrite_front_getD_ge {α : Type} (m : ℕ) (z : α) (xs : List α) (j : ℕ)
    (hj : xs.length ≤ j) :
    (overwrite_front (List.replicate m z) xs).getD j z = z := by
  unfold overwrite_front
  rw [List.getD_append_right _ _ _ _ hj, List.drop_replicate]
  exact getD_replicate_self _ _ _

theorem getD_range_map {β : Type} (f : ℕ → β) (n : ℕ) (d : β) (i : ℕ) (hi : i < n) :
    ((List.range n).map f).getD i d = f i := by
  have hlen : i < ((List.range n).map f).length := by simpa using hi
  rw [List.getD_eq_getElem _ _ hlen]
  simp

theorem le_foldr_max (l : List ℕ) : ∀ i < l.length, l.getD i 0 ≤ l.foldr max 0 := by
  induction l with
  | nil => intro i hi; simp at hi
  | cons a t ih =>
    intro i hi
    cases i with
    | zero => simpa using Nat.le_max_left a (t.foldr max 0)
    | succ k =>
      have hk : k < t.length := by simpa using hi
      calc (a :: t).getD (k + 1) 0 = t.getD k 0 := by simp [List.getD]
        _ ≤ t.foldr max 0 := ih k hk
        _ ≤ max a (t.foldr max 0) := Nat.le_max_right _ _

theorem overwrite_front_length {α : Type} (zeros xs : List α)
    (h : xs.length ≤ zeros.length) :
    (overwrite_front zeros xs).length = zeros.length := by
  unfold overwrite_front
  simp only [List.length_append, List.length_drop]
  omega

/-- C8: `adjust_input_gt` returns class-id, box and mask tensors padded
per-image with zeros to the batch's maximum instance count: row `i` has
that length, its first `gt_num[i]` entries equal image `i`'s input ground
truth, every later entry is the zero element of its kind, and the returned
counts are the per-image instance counts (`model.py` 176-199). -/
theorem C8_adjust_input_gt (cls : List (List ℚ)) (boxes : List (List (List ℚ)))
    (masks : List (List (List (List ℚ))))
    (hbn : ∀ i < cls.length, (boxes.getD i []).length = (cls.getD i []).length)
    (hmn : ∀ i < cls.length, (masks.getD i []).length = (cls.getD i []).length) :
    (adjust_input_gt cls boxes masks).2.2.2 = cls.map List.length
    ∧ (∀ i < cls.length,
        ((adjust_input_gt cls boxes masks).1.getD i []).length
            = (cls.map List.length).foldr max 0
        ∧ ((adjust_input_gt cls boxes masks).2.1.getD i []).length
            = (cls.map List.length).foldr max 0
        ∧ ((adjust_input_gt cls boxes masks).2.2.1.getD i []).length
            = (cls.map List.length).foldr max 0)
    ∧ (∀ i < cls.length, ∀ j < (cls.getD i []).length,
        ((adjust_input_gt cls boxes masks).1.getD i []).getD j 0
            = (cls.getD i []).getD j 0
        ∧ ((adjust_input_gt cls boxes masks).2.1.getD i []).getD j (List.replicate 4 0)
            = (boxes.getD i []).getD j (List.replicate 4 0)
        ∧ ((adjust_input_gt cls boxes masks).2.2.1.getD i []).getD j
              (List.replicate ((masks.getD 0 []).getD 0 []).length
                (List.replicate ((masks.getD 0 []).getD 0 []).length 0))
            = (masks.getD i []).getD j
              (List.replicate ((masks.getD 0 []).getD 0 []).length
                (List.replicate ((masks.getD 0 []).getD 0 []).length 0)))
    ∧ (∀ i < cls.length, ∀ j, (cls.getD i []).length ≤ j →
        ((adjust_input_gt cls boxes masks).1.getD i []).getD j 0 = 0
        ∧ ((adjust_input_gt cls boxes masks).2.1.getD i []).getD j (List.replicate 4 0)
            = List.replicate 4 0
        ∧ ((adjust_input_gt cls boxes masks).2.2.1.getD i []).getD j
              (List.replicate ((masks.getD 0 []).getD 0 []).length
                (List.replicate ((masks.getD 0 []).getD 0 []).length 0))
            = List.replicate ((masks.getD 0 []).getD 0 []).length
                (List.replicate ((masks.getD 0 []).getD 0 []).length 0)) := by
  have hmax : ∀ i < cls.length,
      (cls.getD i []).length ≤ (cls.map List.length).foldr max 0 := by
    intro i hi
    have h1 := le_foldr_max (cls.map List.length) i (by simpa using hi)
    have h2 := List.getD_map (l := cls) (d := ([] : List ℚ)) (n := i) List.length
    simp only [List.length_nil] at h2
    rwa [h2] at h1
  refine ⟨rfl, fun i hi => ?_, fun i hi j hj => ?_, fun i hi j hj => ?_⟩
  · simp only [adjust_input_gt, getD_range_map _ _ _ _ hi]
    refine ⟨?_, ?_, ?_⟩ <;>
      rw [overwrite_front_length] <;>
      simp only [List.length_replicate] <;>
      first
        | exact hmax i hi
        | (rw [hbn i hi]; exact hmax i hi)
        | (rw [hmn i hi]; exact hmax i hi)
  · simp only [adjust_input_gt, getD_range_map _ _ _ _ hi]
    exact ⟨overwrite_front_getD_lt _ _ _ _ hj,
      overwrite_front_getD_lt _ _ _ _ (by rw [hbn i hi]; exact hj),
      overwrite_front_getD_lt _ _ _ _ (by rw [hmn i hi]; exact hj)⟩
  · simp only [adjust_input_gt, getD_range_map _ _ _ _ hi]
    exact ⟨overwrite_front_getD_ge _ _ _ _ hj,
      overwrite_front_getD_ge _ _ _ _ (by rw [hbn i hi]; exact hj),
      overwrite_front_getD_ge _ _ _ _ (by rw [hmn i hi]; exact hj)⟩

theorem C8_adjust_input_gt_witness :
    ((∀ i < 2, (([[[ (1:ℚ),0,0,0 ]], []] : List (List (List ℚ))).getD i []).length
        = (([[5], []] : List (List ℚ)).getD i []).length)
      ∧ (∀ i < 2, (([[[[ (1:ℚ) ]]], []] : List (List (List (List ℚ)))).getD i []).length
        = (([[5], []] : List (List ℚ)).getD i []).length))
    ∧ (adjust_input_gt [[5], []] [[[1,0,0,0]], []] [[[[1]]], []]).2.2.2
        = ([[5], []] : List (List ℚ)).map List.length :=
  ⟨⟨by decide, by decide⟩,
    (C8_adjust_input_gt [[5], []] [[[1,0,0,0]], []] [[[[1]]], []]
      (by decide) (by decide)).1⟩

/-- Predictions of the detection-stage heads in train mode, shaped
`[bs, num_rois, num_cls]`, `[bs, num_rois, num_cls, 4]` and
`[bs, num_rois, num_cls, mask_sz, mask_sz]` (`model.py` 292-294). -/
structure TrainPreds where
  cls_logits : ℕ → ℕ → ℕ → ℚ
  bbox : ℕ → ℕ → ℕ → ℕ → ℚ
  maskp : ℕ → ℕ → ℕ → ℕ → ℕ → ℚ

/-- The zero-initialized prediction tensors of `MaskRCNN.forward` train
mode step 0 (`model.py` 289-294). -/
def zero_preds : TrainPreds :=
  ⟨fun _ _ _ => 0, fun _ _ _ _ => 0, fun _ _ _ _ _ => 0⟩

/-- `torch.sum(_rois)` over the `[bs, num_rois, 4]` sampled-ROI tensor
(`model.py` 316). -/
def rois_sum (bs num_rois : ℕ) (rois : ℕ → ℕ → ℕ → ℚ) : ℚ :=
  sumTo (fun i => sumTo (fun j => sumTo (fun k => rois i j k) 4) num_rois) bs

/-- Steps 0, 3 and 4 of `MaskRCNN.forward` train mode (`model.py` 286-353):
initialize zero prediction tensors; if the sampled ROI tensor does not sum
to zero, run ROI pooling and the classifier/mask heads (abstracted together
as the parameter `heads`, since the head networks are external
collaborators) to overwrite the predictions; then stack the five losses.
The RPN losses depend only on RPN outputs (parameters `rpn_cls_l`,
`rpn_bbox_l`); the three detection losses (`compute_mrcnn_*_loss`, defined
outside `src/` in `lib/workflow.py`) are abstract functions of the
predictions.  Returns the 5-element stacked loss vector and the
predictions used for it. -/
def forward_train (bs num_rois : ℕ) (rois : ℕ → ℕ → ℕ → ℚ)
    (heads : TrainPreds)
    (rpn_cls_l rpn_bbox_l : ℚ)
    (cls_loss bbox_loss mask_loss : TrainPreds → ℚ) :
    List ℚ × TrainPreds :=
  let preds := if rois_sum bs num_rois rois ≠ 0 then heads else zero_preds
  ([rpn_cls_l, rpn_bbox_l, cls_loss preds, bbox_loss preds, mask_loss preds], preds)

/-- C7: in train mode, when every sampled ROI in the batch is entirely
zero, `MaskRCNN.forward` skips the classifier and mask heads and computes
the detection losses on the zero-valued prediction tensors instead of
failing, still returning the stacked five-component loss vector
(`model.py` 289-299, 316-349). -/
theorem C7_forward_train_empty_rois (bs num_rois : ℕ) (rois : ℕ → ℕ → ℕ → ℚ)
    (heads : TrainPreds) (rpn_cls_l rpn_bbox_l : ℚ)
    (cls_loss bbox_loss mask_loss : TrainPreds → ℚ)
    (hz : ∀ i < bs, ∀ j < num_rois, ∀ k < 4, rois i j k = 0) :
    (forward_train bs num_rois rois heads rpn_cls_l rpn_bbox_l
        cls_loss bbox_loss mask_loss).2 = zero_preds
    ∧ (forward_train bs num_rois rois heads rpn_cls_l rpn_bbox_l
        cls_loss bbox_loss mask_loss).1
      = [rpn_cls_l, rpn_bbox_l, cls_loss zero_preds, bbox_loss zero_preds,
         mask_loss zero_preds]
    ∧ (forward_train bs num_rois rois heads rpn_cls_l rpn_bbox_l
        cls_loss bbox_loss mask_loss).1.length = 5 := by
  have hsum : rois_sum bs num_rois rois = 0 := by
    unfold rois_sum
    apply sumTo_eq_zero
    intro i hi
    apply sumTo_eq_zero
    intro j hj
    apply sumTo_eq_zero
    intro k hk
    exact hz i hi j hj k hk
  refine ⟨?_, ?_, ?_⟩ <;> simp [forward_train, hsum]

theorem C7_forward_train_empty_rois_witness :
    (∀ i < 1, ∀ j < 2, ∀ k < 4, (fun _ _ _ => (0:ℚ)) i j k = 0) ∧
      (forward_train 1 2 (fun _ _ _ => 0)
        ⟨fun _ _ _ => 9, fun _ _ _ _ => 9, fun _ _ _ _ _ => 9⟩ 3 4
        (fun p => p.cls_logits 0 0 0) (fun p => p.bbox 0 0 0 0)
        (fun p => p.maskp 0 0 0 0 0)).1
      = [3, 4, zero_preds.cls_logits 0 0 0, zero_preds.bbox 0 0 0 0,
         zero_preds.maskp 0 0 0 0 0] :=
  ⟨by intro i hi j hj k hk; rfl,
    (C7_forward_train_empty_rois 1 2 (fun _ _ _ => 0)
      ⟨fun _ _ _ => 9, fun _ _ _ _ => 9, fun _ _ _ _ _ => 9⟩ 3 4
      (fun p => p.cls_logits 0 0 0) (fun p => p.bbox 0 0 0 0)
      (fun p => p.maskp 0 0 0 0 0)
      (by intro i hi j hj k hk; rfl)).2.1⟩

/-- One pyramid level's batched feature map `[batch, channels, H, W]`
(an element of the list `x` passed to `Dev.forward`). -/
structure FeatMaps where
  nb : ℕ
  nch : ℕ
  H : ℕ
  W : ℕ
  data : ℕ → ℕ → ℕ → ℕ → ℚ

/-- A pooled crop `[channels, P, P]` as produced by one ROI's
crop-and-resize. -/
abbrev Crop := ℕ → ℕ → ℕ → ℚ

/-- Modelled from the spec: sampling position of output cell `i` of a
crop-and-resize of size `P` over a normalized interval `[a1, a2]` of an
axis with `size` pixels.  The implementation (`lib/roialign`, not under
`src/`) follows the TensorFlow `crop_and_resize` convention the spec's
"crop-and-resize / pooling" glossary entry refers to. -/
def sample_pos (a1 a2 : ℚ) (size P i : ℕ) : ℚ :=
  if 1 < P then a1 * ((size:ℚ) - 1) + (i:ℚ) * ((a2 - a1) * ((size:ℚ) - 1) / ((P:ℚ) - 1))
  else (a1 + a2) / 2 * ((size:ℚ) - 1)

/-- Modelled from the spec: bilinear interpolation of a feature map at a
fractional position, with extrapolation value `0` outside the map. -/
def bilinear (m : FeatMaps) (b ch : ℕ) (y x : ℚ) : ℚ :=
  if y < 0 ∨ ((m.H:ℚ) - 1) < y ∨ x < 0 ∨ ((m.W:ℚ) - 1) < x then 0
  else
    let ly : ℚ := y - (⌊y⌋ : ℚ)
    let lx : ℚ := x - (⌊x⌋ : ℚ)
    (1 - ly) * (1 - lx) * m.data b ch (⌊y⌋).toNat (⌊x⌋).toNat
      + (1 - ly) * lx * m.data b ch (⌊y⌋).toNat ((⌊x⌋).toNat + 1)
      + ly * (1 - lx) * m.data b ch ((⌊y⌋).toNat + 1) (⌊x⌋).toNat
      + ly * lx * m.data b ch ((⌊y⌋).toNat + 1) ((⌊x⌋).toNat + 1)

/-- Modelled from the spec: `CropAndResizeFunction(P, P)(m, box, ind)` for
one box — a `P x P` fixed-size feature patch extracted from the box region
of image `ind`'s feature map (`lib/roialign`, not under `src/`). -/
def crop_resize (P : ℕ) (m : FeatMaps) (bx : Box) (ind : ℕ) : Crop :=
  fun ch i j =>
    bilinear m ind ch (sample_pos bx.y1 bx.y2 m.H P i) (sample_pos bx.x1 bx.x2 m.W P j)

/-- All `(image, slot)` positions of the `[bs, num_roi]` ROI grid in
row-major order, the order `torch.nonzero` enumerates. -/
def all_idx (bs n : ℕ) : List (ℕ × ℕ) :=
  (List.range bs).flatMap (fun i => (List.range n).map (fun j => (i, j)))

/-- `torch.nonzero(roi_level == level)` of `Dev.forward`
(`sub_module.py` 339, 365): the positions routed to `level`. -/
def level_idx (cfg : DevConfig) (bs n : ℕ) (rois : ℕ → ℕ → Box) (lvl : ℤ) :
    List (ℕ × ℕ) :=
  (all_idx bs n).filter (fun p => decide (roi_level cfg (rois p.1 p.2) = lvl))

/-- `torch.nonzero(big_ix)` of `Dev.forward` (`sub_module.py` 347, 352):
the positions flagged big for `level` by `_find_big_box`. -/
def big_idx (cfg : DevConfig) (bs n : ℕ) (rois : ℕ → ℕ → Box) (lvl : ℤ) :
    List (ℕ × ℕ) :=
  (all_idx bs n).filter (fun p => find_big_box lvl (roi_level cfg (rois p.1 p.2)))

/-- `small_boxes *= self.upsample_fac` (`sub_module.py` 375) with the only
supported factor `2.0`, applied to the gathered copy of the box row. -/
def scale_box (f : ℚ) (b : Box) : Box := ⟨f * b.y1, f * b.x1, f * b.y2, f * b.x2⟩

/-- `_use_upsample = True if level in [2, 3] else False`
(`sub_module.py` 345). -/
def use_upsample (lvl : ℤ) : Bool := decide (lvl = 2) || decide (lvl = 3)

/-- Feature map the small boxes of `level` are cropped from: the level's
map run through the `upsample` trunk on levels 2 and 3, the raw map
otherwise (`sub_module.py` 374-378). -/
def small_fm (up : FeatMaps → FeatMaps) (x_i : FeatMaps) (lvl : ℤ) : FeatMaps :=
  if use_upsample lvl then up x_i else x_i

/-- The box actually cropped for position `p` at `level`: the gathered copy,
coordinate-doubled on the upsample levels (`sub_module.py` 369, 375). -/
def small_box (rois : ℕ → ℕ → Box) (lvl : ℤ) (p : ℕ × ℕ) : Box :=
  if use_upsample lvl then scale_box 2 (rois p.1 p.2) else rois p.1 p.2

/-- The classification crop of position `p` at `level`
(`sub_module.py` 381-382). -/
def pool_crop (cfg : DevConfig) (up : FeatMaps → FeatMaps) (x_i : FeatMaps)
    (rois : ℕ → ℕ → Box) (lvl : ℤ) (p : ℕ × ℕ) : Crop :=
  crop_resize cfg.pool_size (small_fm up x_i lvl) (small_box rois lvl p) p.1

/-- The mask/feat crop of position `p` at `level` (`sub_module.py` 388-389). -/
def mask_crop (cfg : DevConfig) (up : FeatMaps → FeatMaps) (x_i : FeatMaps)
    (rois : ℕ → ℕ → Box) (lvl : ℤ) (p : ℕ × ℕ) : Crop :=
  crop_resize cfg.mask_pool_size (small_fm up x_i lvl) (small_box rois lvl p) p.1

/-- What one fired level contributes: its routed positions (appended to
`box_to_level`), its classification and mask crop lists (aligned with the
positions), and its `feat_out` entries. -/
structure DevLevelOut where
  idx : List (ℕ × ℕ)
  pooled : List Crop
  maskc : List Crop
  feat : List (List ℚ × List (ℕ → ℚ) × List ℚ × List (ℕ → ℚ))

/-- One iteration of the level loop of `Dev.forward`
(`sub_module.py` 336-396).  A level with no routed ROI is skipped —
it contributes nothing (`continue`), modelled as empty lists — before any
ground-truth access.  Otherwise both the big-subset lookup
(`roi_cls_gt[big_index...]`, line 354) and the routed-ROI lookup
(`roi_cls_gt[index...]`, line 370) index `roi_cls_gt`, which in Python
raises a `TypeError` when it is `None`; the source runs the big branch
first, but with `roi_cls_gt = None` either order raises the same error,
and with ground truth present the big lists are exactly the maps over
`big_idx` (the source's `[], []` placeholder when no box is flagged big
coincides with mapping over the empty gather), so the big branch is
folded into the `feat` field.  The `upsample` and `feat_extract` trunks
are the learned collaborator parameters `up` and `fx`. -/
def process_level (cfg : DevConfig) (up : FeatMaps → FeatMaps) (fx : Crop → (ℕ → ℚ))
    (bs n : ℕ) (x_i : FeatMaps) (rois : ℕ → ℕ → Box)
    (gt : Option (ℕ → ℕ → ℚ)) (lvl : ℤ) : Except String DevLevelOut :=
  let ix := level_idx cfg bs n rois lvl
  if ix.isEmpty then Except.ok ⟨[], [], [], []⟩
  else
    match gt with
    | none => Except.error "roi_cls_gt is None"
    | some g =>
      let bigIx := big_idx cfg bs n rois lvl
      let maskcs := ix.map (mask_crop cfg up x_i rois lvl)
      Except.ok ⟨ix, ix.map (pool_crop cfg up x_i rois lvl), maskcs,
        if use_upsample lvl
        then [(bigIx.map (fun p => g p.1 p.2),
               bigIx.map (fun p => fx (crop_resize cfg.feat_pool_size x_i (rois p.1 p.2) p.1)),
               ix.map (fun p => g p.1 p.2), maskcs.map fx)]
        else []⟩

/-- Output of dynamic-mode `Dev.forward`: position-indexed pooled tensors
(before the final flattening `view`, which keeps `(image, slot)` order),
the per-level feature tuples, and the `rois` tensor as left behind by the
call (the in-place `*=` acts on gathered copies). -/
structure DevOut where
  pooled_out : ℕ → ℕ → Crop
  mask_out : ℕ → ℕ → Crop
  feat_out : List (List ℚ × List (ℕ → ℚ) × List ℚ × List (ℕ → ℚ))
  rois_out : ℕ → ℕ → Box

/-- The zero tensor `_reshape_result` allocates (`sub_module.py` 408, 414). -/
def zero_crop_tensor : ℕ → ℕ → Crop := fun _ _ _ _ _ => 0

/-- The advanced-indexing scatter
`out[box_to_level[:,0], box_to_level[:,1]] = crops`
(`sub_module.py` 410, 416), as a sequence of per-row writes. -/
def scatter_writes (init : ℕ → ℕ → Crop) :
    List ((ℕ × ℕ) × Crop) → (ℕ → ℕ → Crop)
  | [] => init
  | e :: rest => scatter_writes (fun i j => if i = e.1.1 ∧ j = e.1.2 then e.2 else init i j) rest

/-- Dynamic-mode `Dev.forward` (`sub_module.py` 314-400) followed by
`Dev._reshape_result` (402-419): route every ROI to its level, pool each
level's gathered boxes, and scatter the concatenated crops back to their
original `(image, slot)` positions; `torch.cat` of the empty crop list
(no ROI routed anywhere, only possible for an empty ROI grid) raises. -/
def dev_forward (cfg : DevConfig) (up : FeatMaps → FeatMaps) (fx : Crop → (ℕ → ℚ))
    (bs n : ℕ) (x : ℕ → FeatMaps) (rois : ℕ → ℕ → Box)
    (gt : Option (ℕ → ℕ → ℚ)) : Except String DevOut :=
  match process_level cfg up fx bs n (x 0) rois gt 2 with
  | Except.error e => Except.error e
  | Except.ok o2 =>
  match process_level cfg up fx bs n (x 1) rois gt 3 with
  | Except.error e => Except.error e
  | Except.ok o3 =>
  match process_level cfg up fx bs n (x 2) rois gt 4 with
  | Except.error e => Except.error e
  | Except.ok o4 =>
  match process_level cfg up fx bs n (x 3) rois gt 5 with
  | Except.error e => Except.error e
  | Except.ok o5 =>
    let pairsP := ([o2, o3, o4, o5].map (fun o => o.idx.zip o.pooled)).flatten
    let pairsM := ([o2, o3, o4, o5].map (fun o => o.idx.zip o.maskc)).flatten
    if pairsP.isEmpty then Except.error "cat of empty tensor list"
    else Except.ok ⟨scatter_writes zero_crop_tensor pairsP,
      scatter_writes zero_crop_tensor pairsM,
      ([o2, o3, o4, o5].map (fun o => o.feat)).flatten, rois⟩

theorem process_level_none (cfg : DevConfig) (up : FeatMaps → FeatMaps)
    (fx : Crop → (ℕ → ℚ)) (bs n : ℕ) (x_i : FeatMaps) (rois : ℕ → ℕ → Box) (lvl : ℤ) :
    process_level cfg up fx bs n x_i rois none lvl
      = if (level_idx cfg bs n rois lvl).isEmpty then Except.ok ⟨[], [], [], []⟩
        else Except.error "roi_cls_gt is None" := by
  unfold process_level
  by_cases h : (level_idx cfg bs n rois lvl).isEmpty <;> simp [h]

theorem process_level_some (cfg : DevConfig) (up : FeatMaps → FeatMaps)
    (fx : Crop → (ℕ → ℚ)) (bs n : ℕ) (x_i : FeatMaps) (rois : ℕ → ℕ → Box)
    (g : ℕ → ℕ → ℚ) (lvl : ℤ) :
    ∃ ft, process_level cfg up fx bs n x_i rois (some g) lvl
      = Except.ok ⟨level_idx cfg bs n rois lvl,
          (level_idx cfg bs n rois lvl).map (pool_crop cfg up x_i rois lvl),
          (level_idx cfg bs n rois lvl).map (mask_crop cfg up x_i rois lvl), ft⟩ := by
  unfold process_level
  by_cases h : (level_idx cfg bs n rois lvl).isEmpty
  · refine ⟨[], ?_⟩
    rw [List.isEmpty_iff] at h
    simp [h]
  · refine ⟨if use_upsample lvl
        then [((big_idx cfg bs n rois lvl).map (fun p => g p.1 p.2),
          (big_idx cfg bs n rois lvl).map
            (fun p => fx (crop_resize cfg.feat_pool_size x_i (rois p.1 p.2) p.1)),
          (level_idx cfg bs n rois lvl).map (fun p => g p.1 p.2),
          ((level_idx cfg bs n rois lvl).map (mask_crop cfg up x_i rois lvl)).map fx)]
        else [], ?_⟩
    simp only [if_neg h]

theorem mem_all_idx (bs n i j : ℕ) : (i, j) ∈ all_idx bs n ↔ i < bs ∧ j < n := by
  simp [all_idx]

theorem mem_level_idx_self (cfg : DevConfig) (bs n : ℕ) (rois : ℕ → ℕ → Box)
    (i j : ℕ) (hi : i < bs) (hj : j < n) :
    (i, j) ∈ level_idx cfg bs n rois (roi_level cfg (rois i j)) := by
  simp [level_idx, List.mem_filter, (mem_all_idx bs n i j).mpr ⟨hi, hj⟩]

theorem mem_level_idx_level {cfg : DevConfig} {bs n : ℕ} {rois : ℕ → ℕ → Box}
    {lvl : ℤ} {p : ℕ × ℕ} (h : p ∈ level_idx cfg bs n rois lvl) :
    roi_level cfg (rois p.1 p.2) = lvl := by
  have := List.of_mem_filter h
  simpa using this

theorem all_idx_nodup (bs n : ℕ) : (all_idx bs n).Nodup := by
  apply List.nodup_flatMap.mpr
  constructor
  · intro i hi
    exact (List.nodup_range n).map (fun a b hab => by simpa using hab)
  · have hr : (List.range bs).Nodup := List.nodup_range bs
    apply List.Pairwise.imp _ hr
    intro a b hab
    intro p hpa hpb
    simp only [List.mem_map, List.mem_range] at hpa hpb
    obtain ⟨ja, _, hja⟩ := hpa
    obtain ⟨jb, _, hjb⟩ := hpb
    exact hab (by rw [← hja] at hjb; exact (Prod.mk.injEq _ _ _ _).mp hjb |>.1.symm ▸ rfl)

theorem level_idx_nodup (cfg : DevConfig) (bs n : ℕ) (rois : ℕ → ℕ → Box) (lvl : ℤ) :
    (level_idx cfg bs n rois lvl).Nodup :=
  (all_idx_nodup bs n).filter _

theorem zip_self_map {α β : Type} (l : List α) (f : α → β) :
    l.zip (l.map f) = l.map (fun a => (a, f a)) := by
  induction l with
  | nil => rfl
  | cons a t ih => simp [ih]

theorem scatter_writes_not_mem (init : ℕ → ℕ → Crop)
    (l : List ((ℕ × ℕ) × Crop)) (i j : ℕ) (h : ∀ e ∈ l, e.1 ≠ (i, j)) :
    scatter_writes init l i j = init i j := by
  induction l generalizing init with
  | nil => rfl
  | cons e rest ih =>
    rw [scatter_writes, ih _ (fun e' he' => h e' (List.mem_cons_of_mem _ he'))]
    have hne : ¬(i = e.1.1 ∧ j = e.1.2) := by
      intro hc
      exact h e (List.mem_cons_self _ _) (by cases e with | mk q c => cases q with
        | mk a b => simp_all)
    simp [hne]

theorem scatter_writes_mem_nodup (init : ℕ → ℕ → Crop)
    (l : List ((ℕ × ℕ) × Crop)) (i j : ℕ) (c : Crop)
    (hmem : ((i, j), c) ∈ l) (hnd : (l.map Prod.fst).Nodup) :
    scatter_writes init l i j = c := by
  induction l generalizing init with
  | nil => cases hmem
  | cons e rest ih =>
    rcases List.mem_cons.mp hmem with he | hrest
    · subst he
      have hp : (i, j) ∉ rest.map Prod.fst :=
        (List.nodup_cons.mp (by simpa using hnd)).1
      rw [scatter_writes, scatter_writes_not_mem]
      · simp
      · intro e' he' hc
        exact hp (hc ▸ List.mem_map_of_mem Prod.fst he')
    · have hnd' : (rest.map Prod.fst).Nodup :=
        (List.nodup_cons.mp (by simpa using hnd)).2
      rw [scatter_writes]
      exact ih _ hrest hnd'

theorem level_idx_disjoint (cfg : DevConfig) (bs n : ℕ) (rois : ℕ → ℕ → Box)
    {l1 l2 : ℤ} (hne : l1 ≠ l2) :
    (level_idx cfg bs n rois l1).Disjoint (level_idx cfg bs n rois l2) := by
  intro p h1 h2
  exact hne ((mem_level_idx_level h1).symm.trans (mem_level_idx_level h2))

theorem roi_level_mem (cfg : DevConfig) (b : Box) :
    roi_level cfg b = 2 ∨ roi_level cfg b = 3 ∨ roi_level cfg b = 4 ∨
      roi_level cfg b = 5 :=
  level_of_scaled_mem (roi_area_scaled cfg b)

theorem dev_forward_char (cfg : DevConfig) (up : FeatMaps → FeatMaps)
    (fx : Crop → (ℕ → ℚ)) (bs n : ℕ) (x : ℕ → FeatMaps) (rois : ℕ → ℕ → Box)
    (g : ℕ → ℕ → ℚ) (out : DevOut)
    (hout : dev_forward cfg up fx bs n x rois (some g) = Except.ok out)
    (i j : ℕ) (hi : i < bs) (hj : j < n) :
    out.pooled_out i j
      = pool_crop cfg up (x ((roi_level cfg (rois i j) - 2).toNat)) rois
          (roi_level cfg (rois i j)) (i, j)
    ∧ out.mask_out i j
      = mask_crop cfg up (x ((roi_level cfg (rois i j) - 2).toNat)) rois
          (roi_level cfg (rois i j)) (i, j) := by
  obtain ⟨ft2, h2⟩ := process_level_some cfg up fx bs n (x 0) rois g 2
  obtain ⟨ft3, h3⟩ := process_level_some cfg up fx bs n (x 1) rois g 3
  obtain ⟨ft4, h4⟩ := process_level_some cfg up fx bs n (x 2) rois g 4
  obtain ⟨ft5, h5⟩ := process_level_some cfg up fx bs n (x 3) rois g 5
  unfold dev_forward at hout
  rw [h2, h3, h4, h5] at hout
  simp only [List.map_cons, List.map_nil, List.flatten_cons, List.flatten_nil,
    List.append_nil, zip_self_map] at hout
  have hmapfst : ∀ (l : List (ℕ × ℕ)) (f : ℕ × ℕ → Crop),
      ((l.map (fun a => (a, f a))).map Prod.fst) = l := by
    intro l f
    induction l with
    | nil => rfl
    | cons a t ih => simp [ih]
  have hmemL : (i, j) ∈ level_idx cfg bs n rois (roi_level cfg (rois i j)) :=
    mem_level_idx_self cfg bs n rois i j hi hj
  have hkeys : ∀ (f2 f3 f4 f5 : ℕ × ℕ → Crop),
      (((level_idx cfg bs n rois 2).map (fun a => (a, f2 a))
        ++ ((level_idx cfg bs n rois 3).map (fun a => (a, f3 a))
        ++ ((level_idx cfg bs n rois 4).map (fun a => (a, f4 a))
        ++ (level_idx cfg bs n rois 5).map (fun a => (a, f5 a))))).map
          Prod.fst).Nodup := by
    intro f2 f3 f4 f5
    simp only [List.map_append, hmapfst]
    refine List.Nodup.append (level_idx_nodup cfg bs n rois 2)
      (List.Nodup.append (level_idx_nodup cfg bs n rois 3)
        (List.Nodup.append (level_idx_nodup cfg bs n rois 4)
          (level_idx_nodup cfg bs n rois 5)
          (level_idx_disjoint cfg bs n rois (by decide))) ?_) ?_
    · rw [List.disjoint_append_right]
      exact ⟨level_idx_disjoint cfg bs n rois (by decide),
        level_idx_disjoint cfg bs n rois (by decide)⟩
    · rw [List.disjoint_append_right, List.disjoint_append_right]
      exact ⟨level_idx_disjoint cfg bs n rois (by decide),
        level_idx_disjoint cfg bs n rois (by decide),
        level_idx_disjoint cfg bs n rois (by decide)⟩
  have hmem_gen : ∀ (f2 f3 f4 f5 : ℕ × ℕ → Crop),
      (∀ lvl : ℤ, ∀ p : ℕ × ℕ, roi_level cfg (rois p.1 p.2) = lvl →
        (lvl = 2 → f2 p = pool_crop cfg up (x 0) rois 2 p) → True) →
      True := fun _ _ _ _ _ => trivial
  rcases roi_level_mem cfg (rois i j) with hL | hL | hL | hL <;> rw [hL] at hmemL ⊢ <;>
    [ (have hmemP : ((i, j),
          pool_crop cfg up (x 0) rois 2 (i, j)) ∈
          ((level_idx cfg bs n rois 2).map
            (fun a => (a, pool_crop cfg up (x 0) rois 2 a))
          ++ ((level_idx cfg bs n rois 3).map
            (fun a => (a, pool_crop cfg up (x 1) rois 3 a))
          ++ ((level_idx cfg bs n rois 4).map
            (fun a => (a, pool_crop cfg up (x 2) rois 4 a))
          ++ (level_idx cfg bs n rois 5).map
            (fun a => (a, pool_crop cfg up (x 3) rois 5 a))))) :=
        List.mem_append_left _ (List.mem_map_of_mem _ hmemL);
       have hmemM : ((i, j),
          mask_crop cfg up (x 0) rois 2 (i, j)) ∈
          ((level_idx cfg bs n rois 2).map
            (fun a => (a, mask_crop cfg up (x 0) rois 2 a))
          ++ ((level_idx cfg bs n rois 3).map
            (fun a => (a, mask_crop cfg up (x 1) rois 3 a))
          ++ ((level_idx cfg bs n rois 4).map
            (fun a => (a, mask_crop cfg up (x 2) rois 4 a))
          ++ (level_idx cfg bs n rois 5).map
            (fun a => (a, mask_crop cfg up (x 3) rois 5 a))))) :=
        List.mem_append_left _ (List.mem_map_of_mem _ hmemL));
      (have hmemP : ((i, j),
          pool_crop cfg up (x 1) rois 3 (i, j)) ∈
          ((level_idx cfg bs n rois 2).map
            (fun a => (a, pool_crop cfg up (x 0) rois 2 a))
          ++ ((level_idx cfg bs n rois 3).map
            (fun a => (a, pool_crop cfg up (x 1) rois 3 a))
          ++ ((level_idx cfg bs n rois 4).map
            (fun a => (a, pool_crop cfg up (x 2) rois 4 a))
          ++ (level_idx cfg bs n rois 5).map
            (fun a => (a, pool_crop cfg up (x 3) rois 5 a))))) :=
        List.mem_append_right _ (List.mem_append_left _
          (List.mem_map_of_mem _ hmemL));
       have hmemM : ((i, j),
          mask_crop cfg up (x 1) rois 3 (i, j)) ∈
          ((level_idx cfg bs n rois 2).map
            (fun a => (a, mask_crop cfg up (x 0) rois 2 a))
          ++ ((level_idx cfg bs n rois 3).map
            (fun a => (a, mask_crop cfg up (x 1) rois 3 a))
          ++ ((level_idx cfg bs n rois 4).map
            (fun a => (a, mask_crop cfg up (x 2) rois 4 a))
          ++ (level_idx cfg bs n rois 5).map
            (fun a => (a, mask_crop cfg up (x 3) rois 5 a))))) :=
        List.mem_append_right _ (List.mem_append_left _
          (List.mem_map_of_mem _ hmemL)));
      (have hmemP : ((i, j),
          pool_crop cfg up (x 2) rois 4 (i, j)) ∈
          ((level_idx cfg bs n rois 2).map
            (fun a => (a, pool_crop cfg up (x 0) rois 2 a))
          ++ ((level_idx cfg bs n rois 3).map
            (fun a => (a, pool_crop cfg up (x 1) rois 3 a))
          ++ ((level_idx cfg bs n rois 4).map
            (fun a => (a, pool_crop cfg up (x 2) rois 4 a))
          ++ (level_idx cfg bs n rois 5).map
            (fun a => (a, pool_crop cfg up (x 3) rois 5 a))))) :=
        List.mem_append_right _ (List.mem_append_right _
          (List.mem_append_left _ (List.mem_map_of_mem _ hmemL)));
       have hmemM : ((i, j),
          mask_crop cfg up (x 2) rois 4 (i, j)) ∈
          ((level_idx cfg bs n rois 2).map
            (fun a => (a, mask_crop cfg up (x 0) rois 2 a))
          ++ ((level_idx cfg bs n rois 3).map
            (fun a => (a, mask_crop cfg up (x 1) rois 3 a))
          ++ ((level_idx cfg bs n rois 4).map
            (fun a => (a, mask_crop cfg up (x 2) rois 4 a))
          ++ (level_idx cfg bs n rois 5).map
            (fun a => (a, mask_crop cfg up (x 3) rois 5 a))))) :=
        List.mem_append_right _ (List.mem_append_right _
          (List.mem_append_left _ (List.mem_map_of_mem _ hmemL))));
      (have hmemP : ((i, j),
          pool_crop cfg up (x 3) rois 5 (i, j)) ∈
          ((level_idx cfg bs n rois 2).map
            (fun a => (a, pool_crop cfg up (x 0) rois 2 a))
          ++ ((level_idx cfg bs n rois 3).map
            (fun a => (a, pool_crop cfg up (x 1) rois 3 a))
          ++ ((level_idx cfg bs n rois 4).map
            (fun a => (a, pool_crop cfg up (x 2) rois 4 a))
          ++ (level_idx cfg bs n rois 5).map
            (fun a => (a, pool_crop cfg up (x 3) rois 5 a))))) :=
        List.mem_append_right _ (List.mem_append_right _
          (List.mem_append_right _ (List.mem_map_of_mem _ hmemL)));
       have hmemM : ((i, j),
          mask_crop cfg up (x 3) rois 5 (i, j)) ∈
          ((level_idx cfg bs n rois 2).map
            (fun a => (a, mask_crop cfg up (x 0) rois 2 a))
          ++ ((level_idx cfg bs n rois 3).map
            (fun a => (a, mask_crop cfg up (x 1) rois 3 a))
          ++ ((level_idx cfg bs n rois 4).map
            (fun a => (a, mask_crop cfg up (x 2) rois 4 a))
          ++ (level_idx cfg bs n rois 5).map
            (fun a => (a, mask_crop cfg up (x 3) rois 5 a))))) :=
        List.mem_append_right _ (List.mem_append_right _
          (List.mem_append_right _ (List.mem_map_of_mem _ hmemL))))] <;>
  · have hne : ¬((((level_idx cfg bs n rois 2).map
          (fun a => (a, pool_crop cfg up (x 0) rois 2 a))
        ++ ((level_idx cfg bs n rois 3).map
          (fun a => (a, pool_crop cfg up (x 1) rois 3 a))
        ++ ((level_idx cfg bs n rois 4).map
          (fun a => (a, pool_crop cfg up (x 2) rois 4 a))
        ++ (level_idx cfg bs n rois 5).map
          (fun a => (a, pool_crop cfg up (x 3) rois 5 a)))))).isEmpty = true) := by
      rw [List.isEmpty_iff]
      intro hnil
      rw [hnil] at hmemP
      cases hmemP
    rw [if_neg hne, Except.ok.injEq] at hout
    subst hout
    exact ⟨scatter_writes_mem_nodup _ _ i j _ hmemP (hkeys _ _ _ _),
      scatter_writes_mem_nodup _ _ i j _ hmemM (hkeys _ _ _ _)⟩

theorem roi_level_zero_box (cfg : DevConfig) : roi_level cfg ⟨0, 0, 0, 0⟩ = 2 := by
  simp only [roi_level, roi_area_scaled, level_of_scaled]
  norm_num

theorem dev_forward_some_isOk (cfg : DevConfig) (up : FeatMaps → FeatMaps)
    (fx : Crop → (ℕ → ℚ)) (bs n : ℕ) (x : ℕ → FeatMaps) (rois : ℕ → ℕ → Box)
    (g : ℕ → ℕ → ℚ) (hbs : 0 < bs) (hn : 0 < n) :
    ∃ out, dev_forward cfg up fx bs n x rois (some g) = Except.ok out := by
  obtain ⟨ft2, h2⟩ := process_level_some cfg up fx bs n (x 0) rois g 2
  obtain ⟨ft3, h3⟩ := process_level_some cfg up fx bs n (x 1) rois g 3
  obtain ⟨ft4, h4⟩ := process_level_some cfg up fx bs n (x 2) rois g 4
  obtain ⟨ft5, h5⟩ := process_level_some cfg up fx bs n (x 3) rois g 5
  unfold dev_forward
  rw [h2, h3, h4, h5]
  simp only [List.map_cons, List.map_nil, List.flatten_cons, List.flatten_nil,
    List.append_nil, zip_self_map]
  have hmemL : (0, 0) ∈ level_idx cfg bs n rois (roi_level cfg (rois 0 0)) :=
    mem_level_idx_self cfg bs n rois 0 0 hbs hn
  have hne : ¬((((level_idx cfg bs n rois 2).map
        (fun a => (a, pool_crop cfg up (x 0) rois 2 a))
      ++ ((level_idx cfg bs n rois 3).map
        (fun a => (a, pool_crop cfg up (x 1) rois 3 a))
      ++ ((level_idx cfg bs n rois 4).map
        (fun a => (a, pool_crop cfg up (x 2) rois 4 a))
      ++ (level_idx cfg bs n rois 5).map
        (fun a => (a, pool_crop cfg up (x 3) rois 5 a)))))).isEmpty = true) := by
    rw [List.isEmpty_iff]
    intro hnil
    have happend := List.append_eq_nil.mp hnil
    have happend2 := List.append_eq_nil.mp happend.2
    have happend3 := List.append_eq_nil.mp happend2.2
    rcases roi_level_mem cfg (rois 0 0) with hL | hL | hL | hL <;> rw [hL] at hmemL
    · rw [List.map_eq_nil_iff.mp happend.1] at hmemL
      cases hmemL
    · rw [List.map_eq_nil_iff.mp happend2.1] at hmemL
      cases hmemL
    · rw [List.map_eq_nil_iff.mp happend3.1] at hmemL
      cases hmemL
    · rw [List.map_eq_nil_iff.mp happend3.2] at hmemL
      cases hmemL
  rw [if_neg hne]
  exact ⟨_, rfl⟩

/-- C2 (amended): in dynamic mode with ground-truth classes supplied,
`Dev._reshape_result` scatters every per-level pooled crop back to the
output position given by its original `(image index, slot index)`, so
downstream heads see ROIs in original order: position `(i, j)` of both the
classification and the mask output holds exactly the crop pooled for ROI
`(i, j)` at its assigned level.  A zero-padded (all-zero) ROI slot,
however, is itself routed to level 2 (its area makes the `log2` argument
zero, clamped up to level 2), so its output position holds the pooled crop
of the degenerate zero box on the upsampled level-2 map — not the zero
tensor in general. -/
theorem C2_dev_scatter_position (cfg : DevConfig) (up : FeatMaps → FeatMaps)
    (fx : Crop → (ℕ → ℚ)) (bs n : ℕ) (x : ℕ → FeatMaps) (rois : ℕ → ℕ → Box)
    (g : ℕ → ℕ → ℚ) (hbs : 0 < bs) (hn : 0 < n) :
    ∃ out, dev_forward cfg up fx bs n x rois (some g) = Except.ok out
      ∧ (∀ i < bs, ∀ j < n,
          out.pooled_out i j
            = pool_crop cfg up (x ((roi_level cfg (rois i j) - 2).toNat)) rois
                (roi_level cfg (rois i j)) (i, j)
          ∧ out.mask_out i j
            = mask_crop cfg up (x ((roi_level cfg (rois i j) - 2).toNat)) rois
                (roi_level cfg (rois i j)) (i, j))
      ∧ (∀ i j, rois i j = ⟨0, 0, 0, 0⟩ → roi_level cfg (rois i j) = 2) := by
  obtain ⟨out, hout⟩ := dev_forward_some_isOk cfg up fx bs n x rois g hbs hn
  refine ⟨out, hout, fun i hi j hj => dev_forward_char cfg up fx bs n x rois g out
    hout i j hi hj, fun i j hz => ?_⟩
  rw [hz]
  exact roi_level_zero_box cfg

/-- Concrete configuration for the zero-slot analysis: pooling sizes 1/1/2
on a 256 x 256 image. -/
def cfgX : DevConfig := ⟨1, 1, 2, 256, 256⟩

/-- A concrete instance of the learned `upsample` trunk: doubles the
spatial size and outputs the constant feature `1`. -/
def upX : FeatMaps → FeatMaps :=
  fun m => ⟨m.nb, m.nch, 2 * m.H, 2 * m.W, fun _ _ _ _ => 1⟩

/-- A concrete instance of the learned `feat_extract` trunk. -/
def fxX : Crop → ℕ → ℚ := fun _ _ => 0

/-- Concrete pyramid: every level is a constant-one `1 x 1 x 2 x 2` map. -/
def xX : ℕ → FeatMaps := fun _ => ⟨1, 1, 2, 2, fun _ _ _ _ => 1⟩

/-- C2 counterexample: a batch whose single ROI slot holds the zero-padded
all-zero box.  The slot is routed to level 2 and its pooled classification
output at channel 0, position (0,0) is the bilinear crop of the degenerate
zero box on the (constant-one) upsampled level-2 map, namely `1`, not `0`:
the pooled output at a zero-padded slot is not all zero. -/
theorem C2_zero_slot_counterexample :
    (dev_forward cfgX upX fxX 1 1 xX (fun _ _ => ⟨0, 0, 0, 0⟩)
        (some (fun _ _ => 0))).map (fun o => o.pooled_out 0 0 0 0 0)
      = Except.ok 1
    ∧ (1 : ℚ) ≠ 0 := by
  obtain ⟨out, hout⟩ := dev_forward_some_isOk cfgX upX fxX 1 1 xX
    (fun _ _ => ⟨0, 0, 0, 0⟩) (fun _ _ => 0) (by decide) (by decide)
  have hchar := (dev_forward_char cfgX upX fxX 1 1 xX (fun _ _ => ⟨0, 0, 0, 0⟩)
    (fun _ _ => 0) out hout 0 0 (by decide) (by decide)).1
  have hlvl : roi_level cfgX (⟨0, 0, 0, 0⟩ : Box) = 2 := roi_level_zero_box cfgX
  constructor
  · rw [hout]
    simp only [Except.map]
    simp only [hlvl] at hchar
    rw [hchar]
    norm_num [pool_crop, crop_resize, small_fm, small_box, use_upsample, scale_box,
      sample_pos, bilinear, cfgX, upX, xX]
  · norm_num

theorem C2_dev_scatter_position_witness :
    ((0:ℕ) < 1 ∧ (0:ℕ) < 1) ∧
      (∃ out, dev_forward cfgX upX fxX 1 1 xX (fun _ _ => ⟨0, 0, 0, 0⟩)
          (some (fun _ _ => 0)) = Except.ok out
        ∧ (∀ i < 1, ∀ j < 1,
            out.pooled_out i j
              = pool_crop cfgX upX (xX ((roi_level cfgX (⟨0, 0, 0, 0⟩ : Box) - 2).toNat))
                  (fun _ _ => ⟨0, 0, 0, 0⟩) (roi_level cfgX (⟨0, 0, 0, 0⟩ : Box)) (i, j)
            ∧ out.mask_out i j
              = mask_crop cfgX upX (xX ((roi_level cfgX (⟨0, 0, 0, 0⟩ : Box) - 2).toNat))
                  (fun _ _ => ⟨0, 0, 0, 0⟩) (roi_level cfgX (⟨0, 0, 0, 0⟩ : Box)) (i, j))
        ∧ (∀ i j : ℕ, (⟨0, 0, 0, 0⟩ : Box) = ⟨0, 0, 0, 0⟩ →
            roi_level cfgX (⟨0, 0, 0, 0⟩ : Box) = 2)) :=
  ⟨⟨by decide, by decide⟩,
    C2_dev_scatter_position cfgX upX fxX 1 1 xX (fun _ _ => ⟨0, 0, 0, 0⟩)
      (fun _ _ => 0) (by decide) (by decide)⟩

theorem dev_forward_ok_rois (cfg : DevConfig) (up : FeatMaps → FeatMaps)
    (fx : Crop → (ℕ → ℚ)) (bs n : ℕ) (x : ℕ → FeatMaps) (rois : ℕ → ℕ → Box)
    (gt : Option (ℕ → ℕ → ℚ)) (out : DevOut)
    (hout : dev_forward cfg up fx bs n x rois gt = Except.ok out) :
    out.rois_out = rois := by
  unfold dev_forward at hout
  cases h2 : process_level cfg up fx bs n (x 0) rois gt 2 with
  | error e => simp [h2] at hout
  | ok o2 =>
  cases h3 : process_level cfg up fx bs n (x 1) rois gt 3 with
  | error e => simp [h2, h3] at hout
  | ok o3 =>
  cases h4 : process_level cfg up fx bs n (x 2) rois gt 4 with
  | error e => simp [h2, h3, h4] at hout
  | ok o4 =>
  cases h5 : process_level cfg up fx bs n (x 3) rois gt 5 with
  | error e => simp [h2, h3, h4, h5] at hout
  | ok o5 =>
    rw [h2, h3, h4, h5] at hout
    simp only [List.map_cons, List.map_nil, List.flatten_cons, List.flatten_nil,
      List.append_nil] at hout
    by_cases he : ((o2.idx.zip o2.pooled ++ (o3.idx.zip o3.pooled
        ++ (o4.idx.zip o4.pooled ++ o5.idx.zip o5.pooled)))).isEmpty = true
    · simp [he] at hout
    · simp only [Bool.not_eq_true] at he
      simp only [he, Bool.false_eq_true, if_false, Except.ok.injEq] at hout
      rw [← hout]

/-- C10: `Dev.forward` does not mutate its `rois` argument: the in-place
`small_boxes *= upsample_fac` (`sub_module.py` 375) acts on the fresh
tensor produced by advanced indexing (`rois[index[:,0], index[:,1], :]`,
line 369, a gathering copy), so after the call the `rois` tensor holds the
same values as before, even though the boxes actually cropped on the
upsample levels are the coordinate-doubled copies. -/
theorem C10_dev_forward_no_rois_mutation (cfg : DevConfig) (up : FeatMaps → FeatMaps)
    (fx : Crop → (ℕ → ℚ)) (bs n : ℕ) (x : ℕ → FeatMaps) (rois : ℕ → ℕ → Box)
    (gt : Option (ℕ → ℕ → ℚ)) (out : DevOut)
    (hout : dev_forward cfg up fx bs n x rois gt = Except.ok out) :
    (∀ i j, out.rois_out i j = rois i j)
    ∧ (∀ lvl : ℤ, ∀ p : ℕ × ℕ, use_upsample lvl = true →
        small_box rois lvl p = scale_box 2 (rois p.1 p.2)) := by
  refine ⟨fun i j => ?_, fun lvl p hup => by simp [small_box, hup]⟩
  rw [dev_forward_ok_rois cfg up fx bs n x rois gt out hout]

theorem C10_dev_forward_no_rois_mutation_witness :
    ∃ out, dev_forward cfgX upX fxX 1 1 xX (fun _ _ => ⟨0, 0, 0, 0⟩)
        (some (fun _ _ => 0)) = Except.ok out
      ∧ ((∀ i j : ℕ, out.rois_out i j = (⟨0, 0, 0, 0⟩ : Box))
        ∧ (∀ lvl : ℤ, ∀ p : ℕ × ℕ, use_upsample lvl = true →
            small_box (fun _ _ => (⟨0, 0, 0, 0⟩ : Box)) lvl p
              = scale_box 2 (⟨0, 0, 0, 0⟩ : Box))) := by
  obtain ⟨out, hout⟩ := dev_forward_some_isOk cfgX upX fxX 1 1 xX
    (fun _ _ => ⟨0, 0, 0, 0⟩) (fun _ _ => 0) (by decide) (by decide)
  exact ⟨out, hout, C10_dev_forward_no_rois_mutation cfgX upX fxX 1 1 xX
    (fun _ _ => ⟨0, 0, 0, 0⟩) (some (fun _ _ => 0)) out hout⟩

/-- C4: in dynamic mode, calling `Dev.forward` without ground-truth class
ids (`roi_cls_gt = None`, as the inference path
`self.dev_roi(_mrcnn_feature_maps, _proposals)` of `MaskRCNN.forward`
does, `model.py` 265) fails for every input holding at least one ROI:
every ROI is routed to some level by the clamp, and the first fired level
unconditionally indexes `roi_cls_gt` (for its big subset and for its
routed set alike), raising on `None`.  Ground-truth class ids are thus an
undocumented precondition of dynamic-mode pooling. -/
theorem C4_dev_forward_none_fails (cfg : DevConfig) (up : FeatMaps → FeatMaps)
    (fx : Crop → (ℕ → ℚ)) (bs n : ℕ) (x : ℕ → FeatMaps) (rois : ℕ → ℕ → Box)
    (hbs : 0 < bs) (hn : 0 < n) :
    dev_forward cfg up fx bs n x rois none = Except.error "roi_cls_gt is None" := by
  have hmem : (0, 0) ∈ level_idx cfg bs n rois (roi_level cfg (rois 0 0)) :=
    mem_level_idx_self cfg bs n rois 0 0 hbs hn
  have hne : ∀ lvl : ℤ, roi_level cfg (rois 0 0) = lvl →
      level_idx cfg bs n rois lvl ≠ [] := by
    intro lvl hL hnil
    rw [hL, hnil] at hmem
    cases hmem
  unfold dev_forward
  rw [process_level_none, process_level_none, process_level_none, process_level_none]
  rcases roi_level_mem cfg (rois 0 0) with hL | hL | hL | hL
  · simp [hne 2 hL]
  · by_cases hb2 : level_idx cfg bs n rois 2 = []
    · simp [hb2, hne 3 hL]
    · simp [hb2]
  · by_cases hb2 : level_idx cfg bs n rois 2 = []
    · by_cases hb3 : level_idx cfg bs n rois 3 = []
      · simp [hb2, hb3, hne 4 hL]
      · simp [hb2, hb3]
    · simp [hb2]
  · by_cases hb2 : level_idx cfg bs n rois 2 = []
    · by_cases hb3 : level_idx cfg bs n rois 3 = []
      · by_cases hb4 : level_idx cfg bs n rois 4 = []
        · simp [hb2, hb3, hb4, hne 5 hL]
        · simp [hb2, hb3, hb4]
      · simp [hb2, hb3]
    · simp [hb2]

theorem C4_dev_forward_none_fails_witness :
    ((0:ℕ) < 1 ∧ (0:ℕ) < 1) ∧
      dev_forward cfgX upX fxX 1 1 xX (fun _ _ => ⟨0, 0, 0, 0⟩) none
        = Except.error "roi_cls_gt is None" :=
  ⟨⟨by decide, by decide⟩,
    C4_dev_forward_none_fails cfgX upX fxX 1 1 xX (fun _ _ => ⟨0, 0, 0, 0⟩)
      (by decide) (by decide)⟩
